import Mathlib

/-!
Shallow embedding of `analysis_sr_vs_trad.py` (AES-EP1): a linear
statistical pipeline comparing two refactoring tools.  Dataframes are
modelled as lists of records, numeric cells as `ℚ` with `Option` standing
for pandas NaN, and the scipy statistical routines as an abstract
parameter structure `StatParams` of functions over exact rationals.
-/

namespace AES

/-! ## Python string / number parsing (lines 47-50 of the script) -/

/-- Whitespace characters removed by Python `str.strip()`. -/
def isPySpace (c : Char) : Bool :=
  c = ' ' || c = '\t' || c = '\n' || c = '\x0d' || c = '\x0b' || c = '\x0c'

/-- Model of `str.strip()`: drop whitespace from both ends. -/
def pyStrip (l : List Char) : List Char :=
  ((l.dropWhile isPySpace).reverse.dropWhile isPySpace).reverse

/-- Model of `str.replace(",", ".")`: every comma becomes a dot. -/
def replaceComma (l : List Char) : List Char :=
  l.map (fun c => if c = ',' then '.' else c)

/-- Decimal digits folded into a natural number. -/
def digitsToNat (ds : List Char) : ℕ :=
  ds.foldl (fun a c => 10 * a + (c.toNat - Char.toNat '0')) 0

/-- The rational `s * n * 10 ^ (e - k)`: sign `s`, mantissa digits `n`
of which `k` are fractional, decimal exponent `e`. -/
def ratOfParts (s : ℤ) (n : ℕ) (k : ℕ) (e : ℤ) : ℚ :=
  mkRat (s * n * 10 ^ e.toNat) (10 ^ k * 10 ^ (-e).toNat)

/-- Exponent part of a float literal: optional sign then digits. -/
def parseExponent (es : List Char) : Option ℤ :=
  let p : ℤ × List Char :=
    match es with
    | '+' :: t => (1, t)
    | '-' :: t => (-1, t)
    | t => (1, t)
  if p.2 ≠ [] ∧ p.2.all Char.isDigit then
    some (p.1 * (digitsToNat p.2 : ℤ))
  else none

/-- After a mantissa with `k` fractional digits: either nothing or an
exponent marker. -/
def parseAfterMantissa (s : ℤ) (n k : ℕ) (rest : List Char) : Option ℚ :=
  match rest with
  | [] => some (ratOfParts s n k 0)
  | 'e' :: es => (parseExponent es).map (ratOfParts s n k)
  | 'E' :: es => (parseExponent es).map (ratOfParts s n k)
  | _ => none

/-- Unsigned decimal literal with sign `s` already consumed: digits,
optional fraction, optional exponent; at least one digit must be
present. -/
def parseUnsigned (s : ℤ) (l : List Char) : Option ℚ :=
  let intPart := l.takeWhile Char.isDigit
  let rest := l.dropWhile Char.isDigit
  match rest with
  | '.' :: frac =>
    let fracPart := frac.takeWhile Char.isDigit
    let rest2 := frac.dropWhile Char.isDigit
    if intPart = [] ∧ fracPart = [] then none
    else
      parseAfterMantissa s (digitsToNat intPart * 10 ^ fracPart.length + digitsToNat fracPart)
        fracPart.length rest2
  | _ =>
    if intPart = [] then none
    else parseAfterMantissa s (digitsToNat intPart) 0 rest

/-- Model of Python `float(...)` on a character sequence: optional sign
then an unsigned decimal literal.  The special spellings `inf`, `nan` and
underscore separators are outside the model. -/
def pyFloatOfChars (l : List Char) : Option ℚ :=
  match l with
  | '+' :: t => parseUnsigned 1 t
  | '-' :: t => parseUnsigned (-1) t
  | t => parseUnsigned 1 t

/-- Line 48: `.astype(str).str.strip().str.replace(",", ".").astype(float)`.
`none` models the `ValueError` raised by `astype(float)` on a malformed
cell. -/
def parseStrict (s : String) : Option ℚ :=
  pyFloatOfChars (replaceComma (pyStrip s.data))

/-- Lines 49-50: `pd.to_numeric(..., errors="coerce")`; a malformed cell
becomes NaN (`none`) instead of raising. -/
def to_numeric_coerce (s : String) : Option ℚ :=
  pyFloatOfChars (pyStrip s.data)

/-! ## The metrics table (`load_metrics`, lines 36-53) -/

/-- One raw CSV record of `coleta.csv`, with the original column values
as strings. -/
structure RawMetricsRow where
  id : String
  tempo : String
  loc : String
  erros : String
  design : String
  ferramenta : String
deriving DecidableEq, Repr

/-- The dataframe after the renaming and coercions of lines 46-50, before
the column selection of line 52: it still carries `loc_mod`. -/
structure MetricsFullRow where
  id : String
  tempo_h : ℚ
  loc_mod : ℚ
  erros : Option ℚ
  design : Option ℚ
  ferramenta : String
deriving DecidableEq, Repr

/-- The record returned by `load_metrics` after line 52 selected the
columns `["ID", "tempo_h", "erros", "design", "ferramenta"]`. -/
structure MetricsRow where
  id : String
  tempo_h : ℚ
  erros : Option ℚ
  design : Option ℚ
  ferramenta : String
deriving DecidableEq, Repr

/-- The column list of line 52. -/
def metricsSelectedColumns : List String :=
  ["ID", "tempo_h", "erros", "design", "ferramenta"]

/-- Line 52: keep only the selected columns. -/
def selectColumns (r : MetricsFullRow) : MetricsRow :=
  ⟨r.id, r.tempo_h, r.erros, r.design, r.ferramenta⟩

/-- The per-record effect of lines 47-50: `tempo_h` and `loc_mod` go
through the strict `astype(float)` (an error terminates the load), while
`erros` and `design` are coerced with NaN for malformed cells. -/
def parseMetricsRow (r : RawMetricsRow) : Except String MetricsFullRow :=
  match parseStrict r.tempo with
  | none => .error ("could not convert string to float: " ++ r.tempo)
  | some t =>
    match parseStrict r.loc with
    | none => .error ("could not convert string to float: " ++ r.loc)
    | some lc =>
      .ok ⟨r.id, t, lc, to_numeric_coerce r.erros, to_numeric_coerce r.design, r.ferramenta⟩

/-- Record-by-record traversal of the table; the first malformed strict
cell aborts with its error. -/
def traverseMetrics : List RawMetricsRow → Except String (List MetricsFullRow)
  | [] => .ok []
  | r :: rs =>
    match parseMetricsRow r with
    | .error e => .error e
    | .ok a =>
      match traverseMetrics rs with
      | .error e => .error e
      | .ok as => .ok (a :: as)

/-- Model of `load_metrics` (lines 36-53): parse every record, then select the
final columns.  The source applies the conversions column by column; the
record-by-record traversal here raises on exactly the same inputs and
yields the same table. -/
def load_metrics (rows : List RawMetricsRow) : Except String (List MetricsRow) :=
  (traverseMetrics rows).map (·.map selectColumns)

/-! ## The profile table and the left join (line 187) -/

/-- One record of `perfil_dos_participantes.csv` after the renaming of
`load_profile` (lines 55-65); a missing cell is `none`. -/
structure ProfileRow where
  id : String
  formacao : Option String
  experiencia : Option String
  kn_ref : Option String
  kn_java : Option String
deriving DecidableEq, Repr

/-- A row of the merged dataframe: the metrics fields plus, when the ID
matched, the profile fields (a left join leaves them null otherwise). -/
abbrev JoinedRow := MetricsRow × Option ProfileRow

/-- Line 187: `pd.merge(df_metrics, df_profile, on="ID", how="left")`.
Every metrics row is matched against the profile rows with the same ID;
a row with no match is kept with null profile fields. -/
def merge_left (ms : List MetricsRow) (ps : List ProfileRow) : List JoinedRow :=
  ms.flatMap fun m =>
    match ps.filter (fun p => p.id = m.id) with
    | [] => [(m, none)]
    | l => l.map fun p => (m, some p)

/-- Column accessors on the merged dataframe.  `tempo_h` is non-null by
construction; `erros` and `design` may be NaN from the coercion. -/
def jr_ferramenta (r : JoinedRow) : String := r.1.ferramenta

def col_tempo (r : JoinedRow) : Option ℚ := some r.1.tempo_h

def col_erros (r : JoinedRow) : Option ℚ := r.1.erros

def col_design (r : JoinedRow) : Option ℚ := r.1.design

def col_experiencia (r : JoinedRow) : Option String := r.2.bind (·.experiencia)

def col_kn_ref (r : JoinedRow) : Option String := r.2.bind (·.kn_ref)

def col_kn_java (r : JoinedRow) : Option String := r.2.bind (·.kn_java)

/-! ## Numeric helpers (pandas series aggregation over NaN-able cells) -/

/-- Model of `Series.dropna()`: the present values of a NaN-able column. -/
def dropna (l : List (Option ℚ)) : List ℚ := l.filterMap id

/-- Pandas `count`: the number of non-null values. -/
def countNonNull (l : List (Option ℚ)) : ℕ := (dropna l).length

/-- Arithmetic mean of a list of rationals. -/
def meanQ (l : List ℚ) : ℚ := l.sum / l.length

/-- Sample variance with `ddof=1`. -/
def varQ (l : List ℚ) : ℚ :=
  (l.map (fun x => (x - meanQ l) ^ 2)).sum / ((l.length - 1 : ℕ) : ℚ)

/-- Pandas `mean` with `skipna`: NaN (`none`) when no value is present. -/
def meanOpt (l : List (Option ℚ)) : Option ℚ :=
  if countNonNull l = 0 then none else some (meanQ (dropna l))

/-- Pandas `std` with `ddof=1`, via an ambient square-root function `sq`
(the float `sqrt` is kept abstract over ℚ): NaN when fewer than two
values are present. -/
def stdOpt (sq : ℚ → ℚ) (l : List (Option ℚ)) : Option ℚ :=
  if countNonNull l < 2 then none else some (sq (varQ (dropna l)))

/-- Python `round(x, n)` on the script's values: nearest multiple of
`10 ^ (-n)` (the float tie-to-even of CPython is modelled as rounding to
the nearest integer). -/
def pyRound (x : ℚ) (n : ℕ) : ℚ := ((round (x * 10 ^ n) : ℤ) : ℚ) / 10 ^ n

/-- Rounding lifted over NaN. -/
def roundOpt (x : Option ℚ) (n : ℕ) : Option ℚ := x.map (pyRound · n)

/-! ## Descriptive statistics (`descriptive_stats`, lines 67-81) -/

/-- One row of `descriptive_stats.csv`, indexed by the tool. -/
structure DescRow where
  ferramenta : String
  n : ℕ
  tempo_medio : Option ℚ
  tempo_dp : Option ℚ
  erros_medio : Option ℚ
  erros_dp : Option ℚ
  design_medio : Option ℚ
  design_dp : Option ℚ
deriving DecidableEq, Repr

/-- The group keys of `df.groupby("ferramenta")`: the distinct tool
values, in ascending order (pandas sorts group keys by default). -/
def toolKeys (df : List JoinedRow) : List String :=
  ((df.map jr_ferramenta).dedup).insertionSort (· ≤ ·)

/-- The aggregate row of one tool group (lines 70-79): count of non-null
`tempo_h`, mean and `ddof=1` standard deviation of each metric, all
rounded to 3 decimals. -/
def descGroup (sq : ℚ → ℚ) (df : List JoinedRow) (t : String) : DescRow :=
  let g := df.filter (fun r => jr_ferramenta r = t)
  ⟨t, countNonNull (g.map col_tempo),
    roundOpt (meanOpt (g.map col_tempo)) 3, roundOpt (stdOpt sq (g.map col_tempo)) 3,
    roundOpt (meanOpt (g.map col_erros)) 3, roundOpt (stdOpt sq (g.map col_erros)) 3,
    roundOpt (meanOpt (g.map col_design)) 3, roundOpt (stdOpt sq (g.map col_design)) 3⟩

/-- Model of `descriptive_stats` (lines 67-81): one aggregate row per group key. -/
def descriptive_stats (sq : ℚ → ℚ) (df : List JoinedRow) : List DescRow :=
  (toolKeys df).map (descGroup sq df)

/-! ## The scipy interface -/

/-- The scipy.stats routines used by the script, kept abstract as
functions over exact rationals: `shapiro` yields a p-value from a raw
column (NaN entries included, as the script passes the series
unfiltered), the two-sample tests yield `(statistic, pvalue)`,
`norm_isf` is `stats.norm.isf`, `sqrtQ` stands for the float square
root (`math.sqrt` and `** 0.5`), `spearmanr` takes the paired data that
survive `nan_policy="omit"`, and `kruskal` takes the list of groups. -/
structure StatParams where
  shapiro : List (Option ℚ) → ℚ
  ttest_ind : List (Option ℚ) → List (Option ℚ) → ℚ × ℚ
  mannwhitneyu : List (Option ℚ) → List (Option ℚ) → ℚ × ℚ
  norm_isf : ℚ → ℚ
  sqrtQ : ℚ → ℚ
  spearmanr : List (ℚ × ℚ) → ℚ × ℚ
  kruskal : List (List ℚ) → ℚ × ℚ

/-! ## Hypothesis tests (`hypothesis_tests`, lines 83-115) -/

/-- Line 90: the SmartRefactor comparison group. -/
def grp_smart (df : List JoinedRow) : List JoinedRow :=
  df.filter (fun r => jr_ferramenta r = "SmartRefactor")

/-- Line 91: the Tradicional comparison group. -/
def grp_trad (df : List JoinedRow) : List JoinedRow :=
  df.filter (fun r => jr_ferramenta r = "Tradicional")

/-- One row of `hypothesis_results.csv`. -/
structure HypRow where
  metrica : String
  teste : String
  estatistica : ℚ
  p_valor : ℚ
  normal : Bool
  efeito : ℚ
deriving DecidableEq, Repr

/-- The body of the loop of lines 85-114 for one metric column: Shapiro
normality on both groups gates Welch's t test against the two-sided
Mann-Whitney U test; the effect size is Cohen's d respectively the
normal-approximation `|z| / sqrt (n1 + n2)`. -/
def hyp_test_one (P : StatParams) (gs gt : List JoinedRow)
    (m : JoinedRow → Option ℚ) (label : String) : HypRow :=
  let s := gs.map m
  let t := gt.map m
  let p_smart := P.shapiro s
  let p_trad := P.shapiro t
  let normal : Bool := decide (5 / 100 < p_smart) && decide (5 / 100 < p_trad)
  if normal then
    let r := P.ttest_ind s t
    let effect :=
      |meanQ (dropna s) - meanQ (dropna t)| / P.sqrtQ ((varQ (dropna s) + varQ (dropna t)) / 2)
    ⟨label, "t (Welch)", pyRound r.1 3, pyRound r.2 5, normal, pyRound effect 3⟩
  else
    let r := P.mannwhitneyu s t
    let z := P.norm_isf (r.2 / 2)
    let effect := |z| / P.sqrtQ ((s.length + t.length : ℕ) : ℚ)
    ⟨label, "Mann–Whitney", pyRound r.1 3, pyRound r.2 5, normal, pyRound effect 3⟩

/-- The metric columns and row labels of lines 85-89. -/
def metric_columns : List ((JoinedRow → Option ℚ) × String) :=
  [(col_tempo, "Tempo (h)"), (col_erros, "Erros Funcionais"), (col_design, "Problemas de Design")]

/-- Model of `hypothesis_tests` (lines 83-115): one result row per metric; the
comparison groups do not depend on the metric, so they are written once
here, exactly as the per-iteration filters of lines 90-91 produce them. -/
def hypothesis_tests (P : StatParams) (df : List JoinedRow) : List HypRow :=
  metric_columns.map fun p => hyp_test_one P (grp_smart df) (grp_trad df) p.1 p.2

/-! ## Ordinal mapping and profile influence (lines 123-163) -/

/-- The dict comprehension of line 124, `{cat: idx for idx, cat in
enumerate(order)}`, built by insertion in order with later bindings
overwriting earlier ones, then looked up at `x`. -/
def dict_of_order (order : List String) (x : String) : Option ℕ :=
  order.enum.foldl (fun acc p => if p.2 = x then some p.1 else acc) none

/-- Model of `map_ordinal` (lines 123-124): `series.map(dict).astype(float)`; a
value outside the dict, or a missing value, maps to NaN. -/
def map_ordinal (s : List (Option String)) (order : List String) : List (Option ℚ) :=
  s.map fun v => v.bind fun x => (dict_of_order order x).map (fun i => (i : ℚ))

/-- Line 128: the experience bracket order. -/
def exp_order : List String := ["0-1 anos", "1-2 anos", "3-5 anos", "6+ anos"]

/-- Line 129: the knowledge level order. -/
def kn_order : List String := ["Nenhum", "Básico", "Razoável", "Avançado"]

/-- One row of `profile_influence.csv`. -/
structure InfRow where
  variavel : String
  metrica : String
  teste : String
  coeficiente : ℚ
  p_valor : ℚ
deriving DecidableEq, Repr

/-- The pairing that `nan_policy="omit"` leaves to `stats.spearmanr`:
positions where either column is NaN are dropped. -/
def omit_pairs (a b : List (Option ℚ)) : List (ℚ × ℚ) :=
  (a.zip b).filterMap fun p => p.1.bind fun x => p.2.map fun y => (x, y)

/-- The ordinal columns of lines 131-140 with their category orders and
row labels. -/
def ordinal_columns : List ((JoinedRow → Option String) × List String × String) :=
  [(col_experiencia, (exp_order, "Experiência")),
   (col_kn_ref, (kn_order, "Conhecimento Refatoração")),
   (col_kn_java, (kn_order, "Conhecimento Java"))]

/-- The outcome metrics of lines 141 and 152. -/
def outcome_columns : List ((JoinedRow → Option ℚ) × String) :=
  [(col_erros, "Erros"), (col_design, "Design")]

/-- The Spearman block of lines 138-149: three ordinal variables times
two metrics. -/
def spearman_rows (P : StatParams) (df : List JoinedRow) : List InfRow :=
  ordinal_columns.flatMap fun oc =>
    outcome_columns.map fun mp =>
      let nums := map_ordinal (df.map oc.1) oc.2.1
      let r := P.spearmanr (omit_pairs nums (df.map mp.1))
      ⟨oc.2.2, mp.2, "Spearman ρ", pyRound r.1 3, pyRound r.2 5⟩

/-- Line 153: the experience groups of one metric — for each level whose
row filter is non-empty, the `dropna`'d metric values of those rows. -/
def kw_groups (df : List JoinedRow) (m : JoinedRow → Option ℚ) : List (List ℚ) :=
  (exp_order.filter
      (fun lvl => ¬((df.filter (fun r => col_experiencia r = some lvl)).isEmpty))).map
    (fun lvl => dropna ((df.filter (fun r => col_experiencia r = some lvl)).map m))

/-- The Kruskal-Wallis block of lines 152-162: a row is appended only
when at least two groups exist. -/
def kruskal_rows (P : StatParams) (df : List JoinedRow) : List InfRow :=
  outcome_columns.flatMap fun mp =>
    let groups := kw_groups df mp.1
    if 2 ≤ groups.length then
      let r := P.kruskal groups
      [⟨"Experiência (categorias)", mp.2, "Kruskal‑Wallis", pyRound r.1 3, pyRound r.2 5⟩]
    else []

/-- Model of `profile_influence` (lines 126-163): the Spearman rows followed by
the Kruskal-Wallis rows. -/
def profile_influence (P : StatParams) (df : List JoinedRow) : List InfRow :=
  spearman_rows P df ++ kruskal_rows P df

/-! ## Filesystem effects (lines 31-34, 165-178, 181-210) -/

/-- A filesystem effect of the script: creating the output directory or
writing a CSV/PNG file `file` inside directory `dir`. -/
inductive FsEvent where
  | mkdirP (dir : String) (exist_ok : Bool)
  | writeCsv (dir file : String)
  | writePng (dir file : String)
deriving DecidableEq, Repr

/-- Line 33: the fixed output directory. -/
def out_dir : String := "./results"

/-- Model of `create_boxplots` (lines 165-178): one `savefig` per metric. -/
def create_boxplots : List FsEvent :=
  [("tempo_h", "Tempo (h)"), ("erros", "Erros Funcionais"),
   ("design", "Problemas de Design")].map
    fun p => .writePng out_dir ("boxplot_" ++ p.1 ++ ".png")

/-- The writes of `main` (lines 181-210) in source order, for an
invocation on which loading and the statistics succeed. -/
def main_writes : List FsEvent :=
  [.writeCsv out_dir "descriptive_stats.csv",
   .writeCsv out_dir "hypothesis_results.csv",
   .writeCsv out_dir "profile_stats.csv",
   .writeCsv out_dir "profile_influence.csv"] ++ create_boxplots

/-- One successful invocation of the script: the module-level
`out_dir.mkdir(parents=True, exist_ok=True)` of line 34, then `main`. -/
def script_trace : List FsEvent :=
  FsEvent.mkdirP out_dir true :: main_writes

/-- The CSV file written by an event, if any. -/
def csvFile : FsEvent → Option String
  | .writeCsv _ f => some f
  | _ => none

/-- The PNG file written by an event, if any. -/
def pngFile : FsEvent → Option String
  | .writePng _ f => some f
  | _ => none

/-- The directory an event touches. -/
def eventDir : FsEvent → String
  | .mkdirP d _ => d
  | .writeCsv d _ => d
  | .writePng d _ => d

/-! ## Concrete inputs for witnesses and counterexamples -/

/-- A metrics record whose `Erros Funcionais` cell is not a number. -/
def c2_bad_row : RawMetricsRow :=
  ⟨"P1", "1.5", "10", "abc", "2", "SmartRefactor"⟩

/-- A well-formed metrics record. -/
def c3_row_a : RawMetricsRow := ⟨"P1", "1.5", "10", "0", "2", "SmartRefactor"⟩

/-- The same record with a different `LOC Modificadas` value. -/
def c3_row_b : RawMetricsRow := ⟨"P1", "1.5", "999", "0", "2", "SmartRefactor"⟩

/-- A concrete metrics table for the C4 witness. -/
def c4_ms : List MetricsRow :=
  [⟨"P1", 1, some 0, some 2, "SmartRefactor"⟩, ⟨"P3", 2, none, none, "Tradicional"⟩]

/-- A concrete profile table for the C4 witness: `P1` matches, `P3` has
no profile row. -/
def c4_ps : List ProfileRow :=
  [⟨"P1", some "Graduação", some "0-1 anos", some "Básico", some "Básico"⟩,
   ⟨"P2", none, some "6+ anos", none, none⟩]

/-- A trivial stand-in for the float square root, for witnesses. -/
def sq0 : ℚ → ℚ := fun _ => 0

/-- A one-row joined table for the C6 witness. -/
def c6_df : List JoinedRow := [(⟨"P1", 1, some 0, some 2, "SmartRefactor"⟩, none)]

/-- The number of experience levels with at least one row in the table
(the inclusion condition of line 153, independent of the metric). -/
def n_nonempty_groups (df : List JoinedRow) : ℕ :=
  (exp_order.filter
      (fun lvl => ¬((df.filter (fun r => col_experiencia r = some lvl)).isEmpty))).length

/-- The trivial scipy interface for the C10 witness. -/
def P0 : StatParams :=
  ⟨fun _ => 0, fun _ _ => (0, 0), fun _ _ => (0, 0), fun _ => 0, fun _ => 0,
   fun _ => (0, 0), fun _ => (0, 0)⟩

/-! ## Theorems -/

instance {ε α : Type} [DecidableEq ε] [DecidableEq α] : DecidableEq (Except ε α) := fun a b =>
  match a, b with
  | .error e, .error f =>
    if h : e = f then isTrue (by rw [h]) else isFalse (by simp [h])
  | .error _, .ok _ => isFalse (by simp)
  | .ok _, .error _ => isFalse (by simp)
  | .ok x, .ok y =>
    if h : x = y then isTrue (by rw [h]) else isFalse (by simp [h])

/-- C5: one invocation writes exactly the four CSV summaries and the
three per-metric boxplot images, all into the fixed directory
`./results`, which is created (with `exist_ok`) beforehand. -/
theorem c5_outputs :
    script_trace.filterMap csvFile
      = ["descriptive_stats.csv", "hypothesis_results.csv",
         "profile_stats.csv", "profile_influence.csv"]
  ∧ script_trace.filterMap pngFile
      = ["boxplot_tempo_h.png", "boxplot_erros.png", "boxplot_design.png"]
  ∧ FsEvent.mkdirP out_dir true ∈ script_trace
  ∧ (∀ e ∈ script_trace, eventDir e = out_dir)
  ∧ out_dir = "./results" := by
  refine ⟨rfl, rfl, ?_, ?_, rfl⟩ <;> decide

/-- C2 counterexample: the malformed `Erros Funcionais` value "abc" does
not terminate the load; `errors="coerce"` silently turns it into a
missing value that is carried through. -/
theorem c2_cex_malformed_is_coerced :
    load_metrics [c2_bad_row]
      = Except.ok [⟨"P1", mkRat 3 2, none, some 2, "SmartRefactor"⟩] := by
  decide

/-- C2 (amended): a malformed value in the strictly parsed columns
`Tempo (h)` or `LOC Modificadas` raises and terminates the load, while a
malformed value in `Erros Funcionais` or `Problemas de Design` is
silently coerced to a missing value and carried through. -/
theorem c2_amended_strict_and_coerced_columns (r : RawMetricsRow) (rest : List RawMetricsRow) :
    ((parseStrict r.tempo = none ∨ parseStrict r.loc = none) →
       ∃ e, load_metrics (r :: rest) = Except.error e)
  ∧ (∀ t lc, parseStrict r.tempo = some t → parseStrict r.loc = some lc →
       load_metrics [r]
         = Except.ok
             [⟨r.id, t, to_numeric_coerce r.erros, to_numeric_coerce r.design, r.ferramenta⟩]) := by
  constructor
  · rintro (h | h)
    · exact ⟨"could not convert string to float: " ++ r.tempo,
        by simp [load_metrics, traverseMetrics, Except.map, parseMetricsRow, h]⟩
    · rcases ht : parseStrict r.tempo with _ | t
      · exact ⟨"could not convert string to float: " ++ r.tempo,
          by simp [load_metrics, traverseMetrics, Except.map, parseMetricsRow, ht]⟩
      · exact ⟨"could not convert string to float: " ++ r.loc,
          by simp [load_metrics, traverseMetrics, Except.map, parseMetricsRow, ht, h]⟩
  · intro t lc ht hl
    simp [load_metrics, traverseMetrics, Except.map, parseMetricsRow, ht, hl, selectColumns]

/-- C3 counterexample: two inputs that differ only in `LOC Modificadas`
load to identical record sets, and `loc_mod` is not among the columns
kept by line 52 — the lines-modified field is not available downstream. -/
theorem c3_cex_loc_mod_dropped :
    c3_row_a.loc ≠ c3_row_b.loc
  ∧ load_metrics [c3_row_a] = load_metrics [c3_row_b]
  ∧ "loc_mod" ∉ metricsSelectedColumns := by
  decide

/-- C3 (amended): `load_metrics` parses the `LOC Modificadas` column (a
malformed value there still terminates the run) but drops it in the
final column selection, so the returned records carry only ID, time
spent, functional errors, design issues and tool used, and the
lines-modified field is not available to the downstream stages. -/
theorem c3_amended_loc_mod_parsed_then_dropped (r s : RawMetricsRow) :
    "loc_mod" ∉ metricsSelectedColumns
  ∧ (parseStrict r.loc = none → ∃ e, load_metrics [r] = Except.error e)
  ∧ (r.id = s.id → r.tempo = s.tempo → r.erros = s.erros → r.design = s.design →
       r.ferramenta = s.ferramenta →
       (parseStrict r.loc).isSome → (parseStrict s.loc).isSome →
       load_metrics [r] = load_metrics [s]) := by
  refine ⟨by decide, ?_, ?_⟩
  · intro h
    rcases ht : parseStrict r.tempo with _ | t
    · exact ⟨"could not convert string to float: " ++ r.tempo,
        by simp [load_metrics, traverseMetrics, Except.map, parseMetricsRow, ht]⟩
    · exact ⟨"could not convert string to float: " ++ r.loc,
        by simp [load_metrics, traverseMetrics, Except.map, parseMetricsRow, ht, h]⟩
  · intro h1 h2 h3 h4 h5 h6 h7
    rcases ht : parseStrict r.tempo with _ | t
    · simp [load_metrics, traverseMetrics, Except.map, parseMetricsRow, ht, h2 ▸ ht, h2]
    · rcases hl : parseStrict r.loc with _ | lc
      · rw [hl] at h6; exact absurd h6 (by simp)
      · rcases hl2 : parseStrict s.loc with _ | lc2
        · rw [hl2] at h7; exact absurd h7 (by simp)
        · simp [load_metrics, traverseMetrics, Except.map, parseMetricsRow, ht, hl, hl2, h2 ▸ ht,
            h1, h3, h4, h5, selectColumns]

/-- With pairwise-distinct profile identifiers, the rows matching one
identifier are none or exactly one. -/
theorem filter_id_subsingleton (ps : List ProfileRow) (i : String)
    (hu : ps.Pairwise (fun p q => p.id ≠ q.id)) :
    ps.filter (fun p => p.id = i) = [] ∨ ∃ p, ps.filter (fun p => p.id = i) = [p] := by
  induction ps with
  | nil => left; rfl
  | cons a t ih =>
    rcases List.pairwise_cons.mp hu with ⟨ha, ht⟩
    by_cases h : a.id = i
    · right
      refine ⟨a, ?_⟩
      have hnil : t.filter (fun p => p.id = i) = [] := by
        rw [List.filter_eq_nil_iff]
        intro p hp
        simp only [decide_eq_true_eq]
        intro hpe
        exact ha p hp (h.trans hpe.symm)
      simp [List.filter_cons, h, hnil]
    · rcases ih ht with h0 | ⟨p, hp⟩
      · left; simp [List.filter_cons, h, h0]
      · right; exact ⟨p, by simp [List.filter_cons, h, hp]⟩

/-- C4: when every participant identifier occurs at most once in the
profile table, the left join on `ID` keeps exactly one row per metrics
row, in order and with the metrics fields unchanged, and a metrics row
without a matching profile row is kept with null profile fields. -/
theorem c4_left_join_one_row_per_metric (ms : List MetricsRow) (ps : List ProfileRow)
    (hu : ps.Pairwise (fun p q => p.id ≠ q.id)) :
    (merge_left ms ps).map Prod.fst = ms
  ∧ ∀ m ∈ ms, (∀ p ∈ ps, p.id ≠ m.id) →
      ((m, none) : JoinedRow) ∈ merge_left ms ps := by
  constructor
  · induction ms with
    | nil => rfl
    | cons m t ih =>
      have hstep : merge_left (m :: t) ps
          = (match ps.filter (fun p => p.id = m.id) with
             | [] => [((m, none) : JoinedRow)]
             | l => l.map fun p => (m, some p)) ++ merge_left t ps := by
        simp [merge_left]
      rcases filter_id_subsingleton ps m.id hu with h0 | ⟨p, hp⟩
      · rw [hstep, h0]
        simpa using ih
      · rw [hstep, hp]
        simpa using ih
  · intro m hm hnone
    have h0 : ps.filter (fun p => p.id = m.id) = [] := by
      rw [List.filter_eq_nil_iff]
      intro p hp
      simp only [decide_eq_true_eq]
      exact hnone p hp
    refine List.mem_flatMap.mpr ⟨m, hm, ?_⟩
    rw [h0]
    exact List.mem_singleton.mpr rfl

/-- C4 witness: the join theorem applied to the concrete tables. -/
theorem c4_witness :
    (merge_left c4_ms c4_ps).map Prod.fst = c4_ms
  ∧ ∀ m ∈ c4_ms, (∀ p ∈ c4_ps, p.id ≠ m.id) →
      ((m, none) : JoinedRow) ∈ merge_left c4_ms c4_ps :=
  c4_left_join_one_row_per_metric c4_ms c4_ps (by decide)

/-- C1: for every metric, `hypothesis_tests` selects Welch's t test
exactly when both groups' Shapiro-Wilk p-values exceed 0.05, selects the
two-sided Mann-Whitney U test otherwise, and the `Normal?` field equals
that conjunction. -/
theorem c1_normality_gated_test_selection (P : StatParams) (df : List JoinedRow)
    (m : JoinedRow → Option ℚ) (label : String) :
    ((hyp_test_one P (grp_smart df) (grp_trad df) m label).normal = true
       ↔ (5 / 100 < P.shapiro ((grp_smart df).map m)
            ∧ 5 / 100 < P.shapiro ((grp_trad df).map m)))
  ∧ ((hyp_test_one P (grp_smart df) (grp_trad df) m label).teste = "t (Welch)"
       ↔ (5 / 100 < P.shapiro ((grp_smart df).map m)
            ∧ 5 / 100 < P.shapiro ((grp_trad df).map m)))
  ∧ ((hyp_test_one P (grp_smart df) (grp_trad df) m label).teste = "t (Welch)"
       ∨ (hyp_test_one P (grp_smart df) (grp_trad df) m label).teste = "Mann–Whitney")
  ∧ hypothesis_tests P df
      = metric_columns.map fun p => hyp_test_one P (grp_smart df) (grp_trad df) p.1 p.2 := by
  by_cases h1 : 5 / 100 < P.shapiro ((grp_smart df).map m) <;>
    by_cases h2 : 5 / 100 < P.shapiro ((grp_trad df).map m) <;>
      refine ⟨?_, ?_, ?_, rfl⟩ <;>
        simp [hyp_test_one, h1, h2]

/-- C7: the two comparison groups are exactly the rows labelled
`SmartRefactor` respectively `Tradicional`, and rows with any other tool
value change no test statistic: restricting the table to the two labels
leaves `hypothesis_tests` unchanged. -/
theorem c7_hardcoded_comparison_groups (P : StatParams) (df : List JoinedRow) (r : JoinedRow) :
    (r ∈ grp_smart df ↔ r ∈ df ∧ jr_ferramenta r = "SmartRefactor")
  ∧ (r ∈ grp_trad df ↔ r ∈ df ∧ jr_ferramenta r = "Tradicional")
  ∧ hypothesis_tests P
      (df.filter fun x =>
        jr_ferramenta x = "SmartRefactor" ∨ jr_ferramenta x = "Tradicional")
      = hypothesis_tests P df := by
  refine ⟨by simp [grp_smart, List.mem_filter], by simp [grp_trad, List.mem_filter], ?_⟩
  have hs : grp_smart (df.filter fun x =>
      jr_ferramenta x = "SmartRefactor" ∨ jr_ferramenta x = "Tradicional") = grp_smart df := by
    rw [grp_smart, List.filter_filter]
    apply List.filter_congr
    intro x _
    by_cases h : jr_ferramenta x = "SmartRefactor" <;> simp [h]
  have htr : grp_trad (df.filter fun x =>
      jr_ferramenta x = "SmartRefactor" ∨ jr_ferramenta x = "Tradicional") = grp_trad df := by
    rw [grp_trad, List.filter_filter]
    apply List.filter_congr
    intro x _
    by_cases h : jr_ferramenta x = "Tradicional" <;> simp [h]
  rw [hypothesis_tests, hypothesis_tests, hs, htr]

/-- The group keys are distinct. -/
theorem toolKeys_nodup (df : List JoinedRow) : (toolKeys df).Nodup :=
  ((df.map jr_ferramenta).dedup.perm_insertionSort (· ≤ ·)).nodup_iff.mpr
    (List.nodup_dedup _)

/-- A value occurs among the group keys exactly when it occurs in the
tool column. -/
theorem mem_toolKeys (df : List JoinedRow) (t : String) :
    t ∈ toolKeys df ↔ t ∈ df.map jr_ferramenta :=
  ((df.map jr_ferramenta).dedup.perm_insertionSort (· ≤ ·)).mem_iff.trans
    (List.mem_dedup)

/-- Filtering a duplicate-free list for one of its members keeps exactly
that member. -/
theorem filter_eq_singleton_of_nodup {α : Type} [DecidableEq α]
    (l : List α) (hl : l.Nodup) (t : α) (ht : t ∈ l) :
    l.filter (fun x => x = t) = [t] := by
  induction l with
  | nil => cases ht
  | cons a s ih =>
    rcases List.nodup_cons.mp hl with ⟨hna, hns⟩
    rcases List.mem_cons.mp ht with h | h
    · have hnil : s.filter (fun x => x = t) = [] := by
        rw [List.filter_eq_nil_iff]
        intro x hx
        simp only [decide_eq_true_eq]
        intro hxt
        exact hna ((hxt.trans h) ▸ hx)
      simp [List.filter_cons, h.symm, hnil]
    · have hat : ¬(a = t) := fun hc => hna (hc ▸ h)
      simp only [List.filter_cons, hat, decide_eq_true_eq, if_neg]
      simpa using ih hns h

/-- C6: `descriptive_stats` produces exactly one row per distinct tool
value, whose fields are the non-null count of `tempo_h` and the mean and
`ddof=1` standard deviation of each metric over that tool's rows,
rounded to 3 decimals. -/
theorem c6_descriptive_one_row_per_tool (sq : ℚ → ℚ) (df : List JoinedRow) (t : String)
    (ht : t ∈ df.map jr_ferramenta) :
    ((descriptive_stats sq df).filter fun r => r.ferramenta = t) = [descGroup sq df t]
  ∧ (descriptive_stats sq df).length = ((df.map jr_ferramenta).dedup).length
  ∧ descGroup sq df t
      = ⟨t,
          countNonNull ((df.filter fun r => jr_ferramenta r = t).map col_tempo),
          roundOpt (meanOpt ((df.filter fun r => jr_ferramenta r = t).map col_tempo)) 3,
          roundOpt (stdOpt sq ((df.filter fun r => jr_ferramenta r = t).map col_tempo)) 3,
          roundOpt (meanOpt ((df.filter fun r => jr_ferramenta r = t).map col_erros)) 3,
          roundOpt (stdOpt sq ((df.filter fun r => jr_ferramenta r = t).map col_erros)) 3,
          roundOpt (meanOpt ((df.filter fun r => jr_ferramenta r = t).map col_design)) 3,
          roundOpt (stdOpt sq ((df.filter fun r => jr_ferramenta r = t).map col_design)) 3⟩ := by
  refine ⟨?_, ?_, rfl⟩
  · rw [descriptive_stats, List.filter_map]
    have hc : ((toolKeys df).filter ((fun r => decide (r.ferramenta = t)) ∘ descGroup sq df))
        = (toolKeys df).filter (fun k => k = t) :=
      List.filter_congr (fun k _ => rfl)
    rw [hc, filter_eq_singleton_of_nodup _ (toolKeys_nodup df) t ((mem_toolKeys df t).mpr ht)]
    rfl
  · rw [descriptive_stats, List.length_map, toolKeys]
    exact ((df.map jr_ferramenta).dedup.perm_insertionSort (· ≤ ·)).length_eq

/-- C6 witness: the descriptive-statistics theorem at a concrete table. -/
theorem c6_witness :
    ((descriptive_stats sq0 c6_df).filter fun r => r.ferramenta = "SmartRefactor")
      = [descGroup sq0 c6_df "SmartRefactor"]
  ∧ (descriptive_stats sq0 c6_df).length = ((c6_df.map jr_ferramenta).dedup).length
  ∧ descGroup sq0 c6_df "SmartRefactor"
      = ⟨"SmartRefactor",
          countNonNull ((c6_df.filter fun r => jr_ferramenta r = "SmartRefactor").map col_tempo),
          roundOpt (meanOpt ((c6_df.filter fun r => jr_ferramenta r = "SmartRefactor").map col_tempo)) 3,
          roundOpt (stdOpt sq0 ((c6_df.filter fun r => jr_ferramenta r = "SmartRefactor").map col_tempo)) 3,
          roundOpt (meanOpt ((c6_df.filter fun r => jr_ferramenta r = "SmartRefactor").map col_erros)) 3,
          roundOpt (stdOpt sq0 ((c6_df.filter fun r => jr_ferramenta r = "SmartRefactor").map col_erros)) 3,
          roundOpt (meanOpt ((c6_df.filter fun r => jr_ferramenta r = "SmartRefactor").map col_design)) 3,
          roundOpt (stdOpt sq0 ((c6_df.filter fun r => jr_ferramenta r = "SmartRefactor").map col_design)) 3⟩ :=
  c6_descriptive_one_row_per_tool sq0 c6_df "SmartRefactor" (by decide)

/-- Building a dict by insertion in order, with overwriting, looks up to
the last matching binding. -/
theorem foldl_overwrite (x : String) (l : List (ℕ × String)) (acc : Option ℕ) :
    l.foldl (fun a p => if p.2 = x then some p.1 else a) acc
      = ((l.reverse.find? (fun p => p.2 = x)).map Prod.fst).or acc := by
  induction l generalizing acc with
  | nil => rfl
  | cons p t ih =>
    rw [List.foldl_cons, ih, List.reverse_cons, List.find?_append]
    cases tf : t.reverse.find? (fun p => decide (p.2 = x)) with
    | some v => simp [tf]
    | none =>
      by_cases hp : p.2 = x <;> simp [tf, List.find?_cons, hp]

/-- The dict of line 124 maps a category to the index of its last
occurrence in the order. -/
theorem dict_of_order_last_occurrence (order : List String) (x : String) :
    dict_of_order order x
      = (order.enum.reverse.find? (fun p => p.2 = x)).map Prod.fst := by
  rw [dict_of_order, foldl_overwrite]
  exact Option.or_none

/-- The second component of an enumerated entry is an element of the
underlying list. -/
theorem snd_mem_of_mem_enum {α : Type} {p : ℕ × α} {l : List α} (h : p ∈ l.enum) :
    p.2 ∈ l := by
  have hm := List.mem_map_of_mem Prod.snd h
  rwa [List.enum_map_snd] at hm

/-- C8 counterexample: with the order `["a", "a"]` the category at
position 0 is mapped to the float 1, not 0 — the dict comprehension
keeps the last index of a duplicated category. -/
theorem c8_cex_duplicate_category :
    map_ordinal [some "a"] ["a", "a"] = [some 1]
  ∧ map_ordinal [some "a"] ["a", "a"] ≠ [some 0] := by
  constructor <;> decide

/-- C8 (amended): `map_ordinal` maps each value occurring in the order
to the float index of its last occurrence (for pairwise-distinct orders,
the category at position i to the float i), and every other value —
missing values included — to NaN; the pairs surviving the
`nan_policy="omit"` pairing all come from positions where both columns
are present. -/
theorem c8_amended_last_occurrence_mapping (order : List String)
    (s : List (Option String)) (b : List (Option ℚ)) :
    (map_ordinal s order).length = s.length
  ∧ (∀ i (hi : i < s.length) (hi2 : i < (map_ordinal s order).length),
       (map_ordinal s order).get ⟨i, hi2⟩
         = (s.get ⟨i, hi⟩).bind fun x =>
             ((order.enum.reverse.find? (fun p => p.2 = x)).map Prod.fst).map
               (fun k => (k : ℚ)))
  ∧ (∀ x : String, x ∉ order → order.enum.reverse.find? (fun p => p.2 = x) = none)
  ∧ (∀ q ∈ omit_pairs (map_ordinal s order) b,
       (some q.1, some q.2) ∈ (map_ordinal s order).zip b) := by
  refine ⟨List.length_map _ _, ?_, ?_, ?_⟩
  · intro i hi hi2
    simp only [map_ordinal, List.get_eq_getElem, List.getElem_map,
      dict_of_order_last_occurrence, Option.map_map]
  · intro x hx
    rw [List.find?_eq_none]
    intro p hp
    simp only [decide_eq_true_eq]
    intro hpx
    exact hx (hpx ▸ snd_mem_of_mem_enum (List.mem_reverse.mp hp))
  · intro q hq
    rcases List.mem_filterMap.mp hq with ⟨⟨a1, a2⟩, ha, hfa⟩
    cases a1 with
    | none => simp at hfa
    | some x =>
      cases a2 with
      | none => simp at hfa
      | some y =>
        obtain rfl : (x, y) = q := by simpa using hfa
        simpa using ha

/-- The group count of line 153 does not depend on the metric column. -/
theorem kw_groups_length (df : List JoinedRow) (m : JoinedRow → Option ℚ) :
    (kw_groups df m).length = n_nonempty_groups df := by
  simp [kw_groups, n_nonempty_groups]

/-- C9: the six Spearman rows are always produced, while a
Kruskal-Wallis row appears for an outcome metric exactly when at least
two experience-level groups are non-empty; with fewer the row is
omitted without error. -/
theorem c9_spearman_always_kruskal_gated (P : StatParams) (df : List JoinedRow) :
    ((profile_influence P df).filter fun r => r.teste = "Spearman ρ").length = 6
  ∧ ((profile_influence P df).filter fun r => r.teste = "Kruskal‑Wallis").length
      = (if 2 ≤ n_nonempty_groups df then 2 else 0)
  ∧ ((∃ r ∈ profile_influence P df, r.teste = "Kruskal‑Wallis" ∧ r.metrica = "Erros")
       ↔ 2 ≤ n_nonempty_groups df)
  ∧ ((∃ r ∈ profile_influence P df, r.teste = "Kruskal‑Wallis" ∧ r.metrica = "Design")
       ↔ 2 ≤ n_nonempty_groups df) := by
  by_cases h : 2 ≤ n_nonempty_groups df <;>
    refine ⟨?_, ?_, ?_, ?_⟩ <;>
      simp [profile_influence, spearman_rows, kruskal_rows, ordinal_columns,
        outcome_columns, kw_groups_length, h, List.filter_append]

/-- The sample variance is non-negative. -/
theorem varQ_nonneg (l : List ℚ) : 0 ≤ varQ l := by
  apply div_nonneg
  · apply List.sum_nonneg
    intro x hx
    rcases List.mem_map.mp hx with ⟨y, _, rfl⟩
    positivity
  · positivity

/-- Rounding preserves non-negativity. -/
theorem pyRound_nonneg (x : ℚ) (n : ℕ) (hx : 0 ≤ x) : 0 ≤ pyRound x n := by
  rw [pyRound]
  apply div_nonneg _ (by positivity)
  have hz : (0 : ℤ) ≤ round (x * 10 ^ n) := by
    rw [round_eq]
    apply Int.le_floor.mpr
    push_cast
    nlinarith [pow_nonneg (by norm_num : (0 : ℚ) ≤ 10) n]
  exact_mod_cast hz

/-- Both branches of one hypothesis test round a quotient of an absolute
value by a square root of a non-negative argument. -/
theorem hyp_test_one_effect_nonneg (P : StatParams)
    (hsq : ∀ x : ℚ, 0 ≤ x → 0 ≤ P.sqrtQ x) (gs gt : List JoinedRow)
    (m : JoinedRow → Option ℚ) (label : String) :
    0 ≤ (hyp_test_one P gs gt m label).efeito := by
  simp only [hyp_test_one]
  split
  · apply pyRound_nonneg
    apply div_nonneg (abs_nonneg _)
    apply hsq
    have h1 := varQ_nonneg (dropna (gs.map m))
    have h2 := varQ_nonneg (dropna (gt.map m))
    linarith
  · apply pyRound_nonneg
    apply div_nonneg (abs_nonneg _)
    apply hsq
    positivity

/-- C10: every row of `hypothesis_results.csv` carries a non-negative
effect size, in both the Welch and the Mann-Whitney branches. -/
theorem c10_effect_size_nonneg (P : StatParams) (df : List JoinedRow) (r : HypRow)
    (hsq : ∀ x : ℚ, 0 ≤ x → 0 ≤ P.sqrtQ x) (hr : r ∈ hypothesis_tests P df) :
    0 ≤ r.efeito := by
  rcases List.mem_map.mp hr with ⟨p, _, rfl⟩
  exact hyp_test_one_effect_nonneg P hsq (grp_smart df) (grp_trad df) p.1 p.2

/-- C10 witness: the effect-size theorem at the empty table under the
trivial interface. -/
theorem c10_witness :
    0 ≤ (hyp_test_one P0 (grp_smart []) (grp_trad []) col_tempo "Tempo (h)").efeito :=
  c10_effect_size_nonneg P0 [] _ (fun _ _ => le_refl 0)
    (List.mem_map_of_mem _
      (show ((col_tempo, "Tempo (h)") : (JoinedRow → Option ℚ) × String) ∈ metric_columns from
        List.mem_cons_self _ _))

end AES
